import Mathlib

/-!
Verification of the hotel-management record store in src/HMS.cpp.

The C++ program keeps an `std::unordered_map<int, RoomData> rooms_map` and
mutates it through the member functions of `HotelManager`.  This file gives a
shallow embedding of that state and of the operations the specification talks
about.  Machine `int` and `long` values are modelled as `Int` (the program
performs no intentional wrap-around arithmetic), `std::string` as `String`,
and the map as an association list with key-unique insert/update/erase,
observed only through key lookup (`unordered_map` exposes no ordering).
-/

set_option autoImplicit false

namespace HMS

/-- The `RoomData` struct of src/HMS.cpp (lines 9-26): one booking's fields.
`cost` is the room cost and `food_bill` the accumulated restaurant charges. -/
structure RoomData where
  room_no : Int
  name : String
  address : String
  phone : String
  days : Int
  cost : Int
  rtype : String
  food_bill : Int
deriving DecidableEq

/-- The default constructor `RoomData()` (line 20): zeroed numerics, empty
strings. -/
def RoomData.init : RoomData :=
  { room_no := 0, name := "", address := "", phone := "", days := 0,
    cost := 0, rtype := "", food_bill := 0 }

/-- The in-memory store `rooms_map : std::unordered_map<int, RoomData>`,
modelled as an association list from room number to record. -/
abbrev Store := List (Int × RoomData)

namespace Store

/-- `rooms_map.find(k)`: lookup by key. -/
def find? : Store → Int → Option RoomData
  | [], _ => none
  | (k', v) :: t, k => if k' = k then some v else find? t k

/-- `rooms_map[k] = v`: insert, overwriting the entry with key `k` when one
exists. -/
def insert : Store → Int → RoomData → Store
  | [], k, v => [(k, v)]
  | (k', v') :: t, k, v => if k' = k then (k, v) :: t else (k', v') :: insert t k v

/-- In-place mutation through an iterator (`it->second.field = ...`):
apply `f` to the entry with key `k`, leaving entry order and every other
entry untouched. -/
def update : Store → Int → (RoomData → RoomData) → Store
  | [], _, _ => []
  | (k', v') :: t, k, f =>
    if k' = k then (k', f v') :: update t k f else (k', v') :: update t k f

/-- `rooms_map.erase(it)`: remove the entry with key `k`. -/
def erase : Store → Int → Store
  | [], _ => []
  | (k', v') :: t, k => if k' = k then erase t k else (k', v') :: erase t k

@[simp] theorem find?_nil (k : Int) : find? [] k = none := rfl

@[simp] theorem find?_cons (k' : Int) (v : RoomData) (t : Store) (k : Int) :
    find? ((k', v) :: t) k = if k' = k then some v else find? t k := rfl

@[simp] theorem find?_insert_self (s : Store) (k : Int) (v : RoomData) :
    find? (insert s k v) k = some v := by
  induction s with
  | nil => simp [insert]
  | cons p t ih =>
    obtain ⟨k', v'⟩ := p
    by_cases h : k' = k <;> simp [insert, h, ih]

theorem find?_insert_ne (s : Store) (k : Int) (v : RoomData) (k'' : Int)
    (hne : k'' ≠ k) : find? (insert s k v) k'' = find? s k'' := by
  induction s with
  | nil => simp [insert, find?, Ne.symm hne]
  | cons p t ih =>
    obtain ⟨k', v'⟩ := p
    by_cases h : k' = k
    · subst h
      simp [insert, find?, Ne.symm hne]
    · by_cases h' : k' = k'' <;> simp [insert, h, h', find?, ih, hne]

@[simp] theorem find?_update_self (s : Store) (k : Int) (f : RoomData → RoomData) :
    find? (update s k f) k = (find? s k).map f := by
  induction s with
  | nil => simp [update]
  | cons p t ih =>
    obtain ⟨k', v'⟩ := p
    by_cases h : k' = k <;> simp [update, h, find?, ih]

theorem find?_update_ne (s : Store) (k : Int) (f : RoomData → RoomData)
    (k'' : Int) (hne : k'' ≠ k) : find? (update s k f) k'' = find? s k'' := by
  induction s with
  | nil => simp [update]
  | cons p t ih =>
    obtain ⟨k', v'⟩ := p
    by_cases h : k' = k
    · subst h
      simp [update, find?, Ne.symm hne, ih]
    · by_cases h' : k' = k'' <;> simp [update, h, h', find?, ih, hne]

@[simp] theorem find?_erase_self (s : Store) (k : Int) :
    find? (erase s k) k = none := by
  induction s with
  | nil => simp [erase]
  | cons p t ih =>
    obtain ⟨k', v'⟩ := p
    by_cases h : k' = k <;> simp [erase, h, find?, ih]

theorem find?_erase_ne (s : Store) (k : Int) (k'' : Int) (hne : k'' ≠ k) :
    find? (erase s k) k'' = find? s k'' := by
  induction s with
  | nil => simp [erase]
  | cons p t ih =>
    obtain ⟨k', v'⟩ := p
    by_cases h : k' = k
    · subst h
      simp [erase, find?, Ne.symm hne, ih]
    · by_cases h' : k' = k'' <;> simp [erase, h, h', find?, ih, hne]

end Store

/-- The room-band table shared by `add_room` (lines 202-211) and
`modify_days` (lines 420-426): the if-chain mapping a room number to its
room type and per-day rate.  Numbers outside 1..100 match no branch. -/
def room_type_and_rate (r_no : Int) : Option (String × Int) :=
  if 1 ≤ r_no ∧ r_no ≤ 50 then some ("Deluxe", 10000)
  else if 51 ≤ r_no ∧ r_no ≤ 80 then some ("Executive", 12500)
  else if 81 ≤ r_no ∧ r_no ≤ 100 then some ("Presidential", 15000)
  else none

/-- The per-day rate of a room number's band (second component of
`room_type_and_rate`; 0 when no band matches, mirroring the untouched
default `cost` in that dead branch of the source). -/
def rate (r_no : Int) : Int :=
  ((room_type_and_rate r_no).map Prod.snd).getD 0

/-- `HotelManager::check_room_status` (lines 320-329): 2 when the room
number is out of range, 1 when the key is present, 0 when vacant. -/
def check_room_status (s : Store) (r_no : Int) : Int :=
  if r_no < 1 ∨ r_no > 100 then 2
  else if (Store.find? s r_no).isSome then 1 else 0

/-- The three message branches of `add_room` (lines 185-215): the room was
reported occupied, reported out of range, or booked. -/
inductive AddOutcome where
  | occupied
  | invalid
  | booked
deriving DecidableEq

/-- `HotelManager::add_room` (lines 167-219), with the prompted values as
arguments: checks `check_room_status`, and on a vacant valid room fills a
default-constructed `RoomData` (name, address, phone, days), derives
`rtype`/`cost` from the room band, zeroes `food_bill` and inserts. -/
def add_room (s : Store) (r_no : Int) (nm addr ph : String) (d : Int) :
    Store × AddOutcome :=
  let status := check_room_status s r_no
  if status = 1 then (s, .occupied)
  else if status = 2 then (s, .invalid)
  else
    let base : RoomData :=
      { RoomData.init with
          room_no := r_no, name := nm, address := addr,
          phone := ph, days := d }
    let new_room : RoomData :=
      if 1 ≤ r_no ∧ r_no ≤ 50 then
        { base with rtype := "Deluxe", cost := d * 10000 }
      else if 51 ≤ r_no ∧ r_no ≤ 80 then
        { base with rtype := "Executive", cost := d * 12500 }
      else if 81 ≤ r_no ∧ r_no ≤ 100 then
        { base with rtype := "Presidential", cost := d * 15000 }
      else base
    let new_room := { new_room with food_bill := 0 }
    (Store.insert s r_no new_room, .booked)

/-- `HotelManager::modify_name` (lines 376-385): if the room is found, set
its name to the entered string; otherwise leave the store alone. -/
def modify_name (s : Store) (r_no : Int) (nm : String) : Store :=
  match Store.find? s r_no with
  | some _ => Store.update s r_no fun rec => { rec with name := nm }
  | none => s

/-- `HotelManager::modify_address` (lines 388-397). -/
def modify_address (s : Store) (r_no : Int) (addr : String) : Store :=
  match Store.find? s r_no with
  | some _ => Store.update s r_no fun rec => { rec with address := addr }
  | none => s

/-- `HotelManager::modify_phone` (lines 400-409). -/
def modify_phone (s : Store) (r_no : Int) (ph : String) : Store :=
  match Store.find? s r_no with
  | some _ => Store.update s r_no fun rec => { rec with phone := ph }
  | none => s

/-- `HotelManager::modify_days` (lines 412-431): if the room is found, set
`days` to the entered value and recompute `cost` from the record's own
`room_no` band (the final else-less branch of the chain leaves `cost`
untouched, as in the source). -/
def modify_days (s : Store) (r_no : Int) (d : Int) : Store :=
  match Store.find? s r_no with
  | some _ =>
    Store.update s r_no fun rec =>
      let rec1 := { rec with days := d }
      if 1 ≤ rec1.room_no ∧ rec1.room_no ≤ 50 then
        { rec1 with cost := rec1.days * 10000 }
      else if 51 ≤ rec1.room_no ∧ rec1.room_no ≤ 80 then
        { rec1 with cost := rec1.days * 12500 }
      else if 81 ≤ rec1.room_no ∧ rec1.room_no ≤ 100 then
        { rec1 with cost := rec1.days * 15000 }
      else rec1
  | none => s

/-- The outcome reported by `delete_customer_record`: room not found, or
the bill `cost + food_bill` that was displayed, with or without the record
having been erased. -/
inductive CheckoutResult where
  | notFound
  | cancelled (bill : Int)
  | checkedOut (bill : Int)
deriving DecidableEq

/-- `HotelManager::delete_customer_record` (lines 434-464): if the room is
found, display the total bill `cost + food_bill`, then erase the record
exactly when the typed confirmation character is y or Y. -/
def delete_customer_record (s : Store) (r_no : Int) (confirm : Char) :
    Store × CheckoutResult :=
  match Store.find? s r_no with
  | none => (s, .notFound)
  | some room =>
    if confirm = 'y' ∨ confirm = 'Y' then
      (Store.erase s r_no, .checkedOut (room.cost + room.food_bill))
    else
      (s, .cancelled (room.cost + room.food_bill))

/-- `HotelManager::calculateBreakfastCost` (lines 513-518): add
500 per person to the record's food bill. -/
def calculateBreakfastCost (room : RoomData) (num_people : Int) : RoomData :=
  { room with food_bill := room.food_bill + 500 * num_people }

/-- `HotelManager::calculateLunchCost` (lines 520-525): 1000 per person. -/
def calculateLunchCost (room : RoomData) (num_people : Int) : RoomData :=
  { room with food_bill := room.food_bill + 1000 * num_people }

/-- `HotelManager::calculateDinnerCost` (lines 527-532): 1200 per person. -/
def calculateDinnerCost (room : RoomData) (num_people : Int) : RoomData :=
  { room with food_bill := room.food_bill + 1200 * num_people }

/-- `HotelManager::order_food` (lines 467-510), with the prompted values as
arguments: aborts when the room is not found; otherwise dispatches on the
meal choice (1 breakfast, 2 lunch, 3 dinner; anything else is rejected with
no change to the record). -/
def order_food (s : Store) (meal_choice r_no num_people : Int) : Store :=
  match Store.find? s r_no with
  | none => s
  | some _ =>
    if meal_choice = 1 then
      Store.update s r_no fun room => calculateBreakfastCost room num_people
    else if meal_choice = 2 then
      Store.update s r_no fun room => calculateLunchCost room num_people
    else if meal_choice = 3 then
      Store.update s r_no fun room => calculateDinnerCost room num_people
    else s

/-- The per-person price the three `calculate*Cost` helpers attach to each
valid meal choice (0 for a choice `order_food` rejects). -/
def meal_rate (meal_choice : Int) : Int :=
  if meal_choice = 1 then 500
  else if meal_choice = 2 then 1000
  else if meal_choice = 3 then 1200
  else 0

/-- Folding a sequence of `(meal_choice, num_people)` orders for room
`r_no` through `order_food`. -/
def apply_orders (s : Store) (r_no : Int) (orders : List (Int × Int)) : Store :=
  orders.foldl (fun s' o => order_food s' o.1 r_no o.2) s

/-- A byte of the persisted file Record.DAT. -/
abbrev Byte := Fin 256

/-- The read loop of `load_data` (lines 90-100):
`while (fin.read(reinterpret_cast<char*>(&temp_room), sizeof(RoomData)))`.
Each successful `read` consumes exactly `size` bytes (one record image);
the loop stops as soon as fewer than `size` bytes remain, silently leaving
any trailing bytes unread.  `size` stands for `sizeof(RoomData)`, which is
platform dependent; everything proved below holds for every positive size.
The fuel argument (`bytes.length` in the wrapper) only bounds the number of
iterations, which is at most the number of remaining bytes. -/
def readRecordsAux (size : Nat) : Nat → List Byte → List (List Byte)
  | 0, _ => []
  | fuel + 1, bytes =>
    if 0 < size ∧ size ≤ bytes.length then
      bytes.take size :: readRecordsAux size fuel (bytes.drop size)
    else []

/-- The chunks of `size` bytes that the `load_data` loop successfully
reads from the stream, in order. -/
def readRecords (size : Nat) (bytes : List Byte) : List (List Byte) :=
  readRecordsAux size bytes.length bytes

theorem readRecordsAux_nil (size fuel : Nat) :
    readRecordsAux size fuel [] = [] := by
  cases fuel with
  | zero => rfl
  | succ g =>
    rw [readRecordsAux, if_neg]
    simp only [List.length_nil]
    omega

theorem readRecordsAux_congr (size : Nat) :
    ∀ f1 f2 : Nat, ∀ bytes : List Byte, bytes.length ≤ f1 → bytes.length ≤ f2 →
      readRecordsAux size f1 bytes = readRecordsAux size f2 bytes := by
  intro f1
  induction f1 with
  | zero =>
    intro f2 bytes h1 h2
    have hb : bytes = [] := List.length_eq_zero.mp (Nat.le_zero.mp h1)
    subst hb
    rw [readRecordsAux_nil, readRecordsAux_nil]
  | succ g1 ih =>
    intro f2 bytes h1 h2
    cases f2 with
    | zero =>
      have hb : bytes = [] := List.length_eq_zero.mp (Nat.le_zero.mp h2)
      subst hb
      rw [readRecordsAux_nil, readRecordsAux_nil]
    | succ g2 =>
      rw [readRecordsAux, readRecordsAux]
      by_cases hc : 0 < size ∧ size ≤ bytes.length
      · rw [if_pos hc, if_pos hc]
        have hlen : (bytes.drop size).length ≤ g1 := by
          simp only [List.length_drop]
          omega
        have hlen2 : (bytes.drop size).length ≤ g2 := by
          simp only [List.length_drop]
          omega
        rw [ih g2 (bytes.drop size) hlen hlen2]
      · rw [if_neg hc, if_neg hc]

/-- The natural unfolding of the read loop. -/
theorem readRecords_eq (size : Nat) (bytes : List Byte) :
    readRecords size bytes =
      if 0 < size ∧ size ≤ bytes.length then
        bytes.take size :: readRecords size (bytes.drop size)
      else [] := by
  by_cases hc : 0 < size ∧ size ≤ bytes.length
  · rw [if_pos hc, readRecords, readRecords]
    obtain ⟨n, hn⟩ : ∃ n, bytes.length = n + 1 := ⟨bytes.length - 1, by omega⟩
    rw [hn, readRecordsAux, if_pos hc]
    congr 1
    apply readRecordsAux_congr
    · simp only [List.length_drop]
      omega
    · exact Nat.le_refl _
  · rw [if_neg hc, readRecords]
    cases hl : bytes.length with
    | zero => rfl
    | succ n => rw [readRecordsAux, if_neg hc]

/-- `HotelManager::load_data` (lines 83-103), given the bytes of the file:
each successfully read chunk is reinterpreted as a `RoomData` (the
reinterpretation is abstracted as `decode`, since it depends on the
platform's memory layout) and stored with `rooms_map[temp_room.room_no] =
temp_room`, starting from the empty map of a fresh `HotelManager`. -/
def load_data (decode : List Byte → RoomData) (size : Nat)
    (bytes : List Byte) : Store :=
  (readRecords size bytes).foldl
    (fun s chunk => Store.insert s (decode chunk).room_no (decode chunk)) []

/-- `load_data` including the missing-file branch (lines 85-88): when the
file cannot be opened the function returns at once, leaving the map empty. -/
def load_from_file (decode : List Byte → RoomData) (size : Nat) :
    Option (List Byte) → Store
  | none => []
  | some bytes => load_data decode size bytes

/-- `HotelManager::save_data` (lines 106-118): for each record one
`fout.write(..., sizeof(RoomData))` of its in-memory image.  The image of a
record is abstracted as `image`; the one property of the source the claims
need is that every image is exactly `sizeof(RoomData)` bytes long, however
long the record's strings are. -/
def save_data (image : RoomData → List Byte) (s : Store) : List Byte :=
  (s.map fun p => image p.2).flatten

/-! ### Characterisation of the operations -/

theorem check_room_status_eq_two (s : Store) (r : Int) (h : r < 1 ∨ r > 100) :
    check_room_status s r = 2 := by
  rw [check_room_status, if_pos h]

theorem check_room_status_eq_one (s : Store) (r : Int) (rec : RoomData)
    (hb : Store.find? s r = some rec) (h1 : 1 ≤ r) (h2 : r ≤ 100) :
    check_room_status s r = 1 := by
  rw [check_room_status, if_neg (by omega), hb, if_pos (Option.isSome_some)]

theorem check_room_status_eq_zero (s : Store) (r : Int)
    (hv : Store.find? s r = none) (h1 : 1 ≤ r) (h2 : r ≤ 100) :
    check_room_status s r = 0 := by
  rw [check_room_status, if_neg (by omega), hv, if_neg (by simp)]

theorem add_room_invalid_eq (s : Store) (r : Int) (nm addr ph : String)
    (d : Int) (h : r < 1 ∨ r > 100) :
    add_room s r nm addr ph d = (s, AddOutcome.invalid) := by
  simp only [add_room, check_room_status_eq_two s r h]
  norm_num

theorem add_room_occupied_eq (s : Store) (r : Int) (nm addr ph : String)
    (d : Int) (rec : RoomData) (hb : Store.find? s r = some rec)
    (h1 : 1 ≤ r) (h2 : r ≤ 100) :
    add_room s r nm addr ph d = (s, AddOutcome.occupied) := by
  simp only [add_room, check_room_status_eq_one s r rec hb h1 h2]
  norm_num

theorem add_room_vacant_eq (s : Store) (r : Int) (nm addr ph : String)
    (d : Int) (hv : Store.find? s r = none) (h1 : 1 ≤ r) (h2 : r ≤ 100) :
    add_room s r nm addr ph d =
      (Store.insert s r
        { room_no := r, name := nm, address := addr, phone := ph, days := d,
          cost := d * rate r,
          rtype := ((room_type_and_rate r).map Prod.fst).getD "",
          food_bill := 0 },
       AddOutcome.booked) := by
  simp only [add_room, check_room_status_eq_zero s r hv h1 h2]
  norm_num
  by_cases hA : 1 ≤ r ∧ r ≤ 50
  · simp [hA, rate, room_type_and_rate, RoomData.init]
  · by_cases hB : 51 ≤ r ∧ r ≤ 80
    · simp [hA, hB, rate, room_type_and_rate, RoomData.init]
    · have hC : 81 ≤ r ∧ r ≤ 100 := by omega
      simp [hA, hB, hC, rate, room_type_and_rate, RoomData.init]

theorem modify_days_found_eq (s : Store) (r : Int) (d : Int) (rec0 : RoomData)
    (hb : Store.find? s r = some rec0) (hr : rec0.room_no = r)
    (h1 : 1 ≤ r) (h2 : r ≤ 100) :
    Store.find? (modify_days s r d) r =
      some { rec0 with days := d, cost := d * rate r } := by
  simp only [modify_days, hb]
  rw [Store.find?_update_self, hb, Option.map_some']
  congr 1
  by_cases hA : 1 ≤ r ∧ r ≤ 50
  · simp [hr, hA, rate, room_type_and_rate]
  · by_cases hB : 51 ≤ r ∧ r ≤ 80
    · simp [hr, hA, hB, rate, room_type_and_rate]
    · have hC : 81 ≤ r ∧ r ≤ 100 := by omega
      simp [hr, hA, hB, hC, rate, room_type_and_rate]

theorem order_food_found_eq (s : Store) (mc r n : Int) (rec : RoomData)
    (hb : Store.find? s r = some rec) :
    Store.find? (order_food s mc r n) r =
      some { rec with food_bill := rec.food_bill + meal_rate mc * n } := by
  simp only [order_food, hb]
  by_cases h1 : mc = 1
  · simp [h1, Store.find?_update_self, hb, calculateBreakfastCost, meal_rate]
  · by_cases h2 : mc = 2
    · simp [h1, h2, Store.find?_update_self, hb, calculateLunchCost, meal_rate]
    · by_cases h3 : mc = 3
      · simp [h1, h2, h3, Store.find?_update_self, hb, calculateDinnerCost,
          meal_rate]
      · simp [h1, h2, h3, hb, meal_rate]

theorem order_food_frame (s : Store) (mc r n : Int) (k : Int) (hk : k ≠ r) :
    Store.find? (order_food s mc r n) k = Store.find? s k := by
  rw [order_food]
  cases hb : Store.find? s r with
  | none => rfl
  | some rec =>
    by_cases h1 : mc = 1
    · simp [h1, Store.find?_update_ne _ _ _ _ hk]
    · by_cases h2 : mc = 2
      · simp [h1, h2, Store.find?_update_ne _ _ _ _ hk]
      · by_cases h3 : mc = 3
        · simp [h1, h2, h3, Store.find?_update_ne _ _ _ _ hk]
        · simp [h1, h2, h3]

/-! ### The claims -/

/-- Claim C4: for every room number in 1..100 the band table
`room_type_and_rate` returns exactly one of the three bands, with no gaps
or overlaps: 1..50 gives (Deluxe, 10000), 51..80 gives (Executive, 12500)
and 81..100 gives (Presidential, 15000); the inputs 0 and 101 fall outside
every band (they return none, matching the function's contract covering
only 1..100). -/
theorem room_type_and_rate_bands (r : Int) (h1 : 1 ≤ r) (h2 : r ≤ 100) :
    (r ≤ 50 → room_type_and_rate r = some ("Deluxe", 10000)) ∧
    (51 ≤ r ∧ r ≤ 80 → room_type_and_rate r = some ("Executive", 12500)) ∧
    (81 ≤ r → room_type_and_rate r = some ("Presidential", 15000)) ∧
    ((r ≤ 50 ∧ ¬(51 ≤ r ∧ r ≤ 80) ∧ ¬81 ≤ r) ∨
     (¬r ≤ 50 ∧ (51 ≤ r ∧ r ≤ 80) ∧ ¬81 ≤ r) ∨
     (¬r ≤ 50 ∧ ¬(51 ≤ r ∧ r ≤ 80) ∧ 81 ≤ r)) ∧
    room_type_and_rate 0 = none ∧ room_type_and_rate 101 = none := by
  refine ⟨?_, ?_, ?_, by omega, by norm_num [room_type_and_rate],
    by norm_num [room_type_and_rate]⟩
  · intro h
    rw [room_type_and_rate, if_pos ⟨h1, h⟩]
  · intro h
    rw [room_type_and_rate, if_neg (by omega), if_pos h]
  · intro h
    rw [room_type_and_rate, if_neg (by omega), if_neg (by omega),
      if_pos ⟨h, h2⟩]

/-- Witness for C4 at the concrete rooms 1, 51, 81. -/
theorem room_type_and_rate_bands_witness :
    room_type_and_rate 1 = some ("Deluxe", 10000) ∧
    room_type_and_rate 51 = some ("Executive", 12500) ∧
    room_type_and_rate 81 = some ("Presidential", 15000) ∧
    room_type_and_rate 0 = none ∧ room_type_and_rate 101 = none :=
  ⟨(room_type_and_rate_bands 1 (by norm_num) (by norm_num)).1 (by norm_num),
   (room_type_and_rate_bands 51 (by norm_num) (by norm_num)).2.1
     (by norm_num),
   (room_type_and_rate_bands 81 (by norm_num) (by norm_num)).2.2.1
     (by norm_num),
   (room_type_and_rate_bands 1 (by norm_num) (by norm_num)).2.2.2.2⟩

/-- Claim C6: `add_room` reports an invalid room for any room number
outside 1..100 and reports an occupied room when the key is already
present; in both failure branches the returned store is the input store
itself, so in particular the existing record keeps all its fields. -/
theorem add_room_invalid_or_occupied_unchanged (s : Store) (r : Int)
    (nm addr ph : String) (d : Int) :
    ((r < 1 ∨ r > 100) → add_room s r nm addr ph d = (s, AddOutcome.invalid)) ∧
    (1 ≤ r → r ≤ 100 → ∀ rec, Store.find? s r = some rec →
      add_room s r nm addr ph d = (s, AddOutcome.occupied) ∧
      Store.find? (add_room s r nm addr ph d).1 r = some rec) := by
  constructor
  · intro h
    exact add_room_invalid_eq s r nm addr ph d h
  · intro h1 h2 rec hb
    have he := add_room_occupied_eq s r nm addr ph d rec hb h1 h2
    exact ⟨he, by rw [he]; exact hb⟩

/-- Witness for C6: booking room 101 is rejected as invalid, and booking
room 5 over an existing booking is rejected as occupied with the record
intact. -/
theorem add_room_invalid_or_occupied_unchanged_witness :
    add_room [] 101 "" "" "" 1 = ([], AddOutcome.invalid) ∧
    add_room [((5 : Int), RoomData.init)] 5 "x" "y" "z" 2 =
      ([((5 : Int), RoomData.init)], AddOutcome.occupied) :=
  ⟨(add_room_invalid_or_occupied_unchanged [] 101 "" "" "" 1).1
     (by norm_num),
   ((add_room_invalid_or_occupied_unchanged [((5 : Int), RoomData.init)] 5
       "x" "y" "z" 2).2 (by norm_num) (by norm_num) RoomData.init rfl).1⟩

/-- Claim C7: when the targeted room is booked, checkout reports the
record's total as cost plus food bill; the record is erased exactly when
the confirmation character is y or Y (other records untouched), and any
other character leaves the store exactly as it was. -/
theorem delete_customer_record_confirmation (s : Store) (r : Int) (c : Char)
    (rec : RoomData) (hb : Store.find? s r = some rec) :
    ((c = 'y' ∨ c = 'Y') →
      delete_customer_record s r c =
        (Store.erase s r, CheckoutResult.checkedOut (rec.cost + rec.food_bill)) ∧
      Store.find? (delete_customer_record s r c).1 r = none ∧
      ∀ k, k ≠ r →
        Store.find? (delete_customer_record s r c).1 k = Store.find? s k) ∧
    (¬(c = 'y' ∨ c = 'Y') →
      delete_customer_record s r c =
        (s, CheckoutResult.cancelled (rec.cost + rec.food_bill))) := by
  constructor
  · intro hc
    have he : delete_customer_record s r c =
        (Store.erase s r,
         CheckoutResult.checkedOut (rec.cost + rec.food_bill)) := by
      simp only [delete_customer_record, hb]
      rw [if_pos hc]
    refine ⟨he, ?_, ?_⟩
    · rw [he]
      exact Store.find?_erase_self s r
    · intro k hk
      rw [he]
      exact Store.find?_erase_ne s r k hk
  · intro hc
    simp only [delete_customer_record, hb]
    rw [if_neg hc]

/-- A concrete booked record used by the witnesses below: room 1, 3 days,
room cost 30000, food bill 2200 (the checkout scenario of the spec). -/
def billRoom : RoomData :=
  { RoomData.init with
      room_no := 1, days := 3, cost := 30000, food_bill := 2200 }

/-- A one-room store holding `billRoom`. -/
def billStore : Store := [((1 : Int), billRoom)]

/-- Witness for C7 on a one-room store: n cancels and leaves the store,
y erases the record; both display the bill 30000 + 2200. -/
theorem delete_customer_record_confirmation_witness :
    delete_customer_record billStore 1 'n' =
      (billStore, CheckoutResult.cancelled 32200) ∧
    delete_customer_record billStore 1 'y' =
      ([], CheckoutResult.checkedOut 32200) :=
  ⟨(delete_customer_record_confirmation billStore 1 'n' billRoom
      (by decide)).2 (by decide),
   ((delete_customer_record_confirmation billStore 1 'y' billRoom
       (by decide)).1 (by decide)).1⟩

/-- Claim C8: updating the name, address or phone of a booked record
changes only that text field of that record (room number, days, room type,
cost and food bill are kept) and leaves every other key's lookup result
unchanged. -/
theorem modify_text_fields_frame (s : Store) (r : Int) (nm addr ph : String)
    (rec : RoomData) (hb : Store.find? s r = some rec) :
    (Store.find? (modify_name s r nm) r = some { rec with name := nm } ∧
      ∀ k, k ≠ r → Store.find? (modify_name s r nm) k = Store.find? s k) ∧
    (Store.find? (modify_address s r addr) r =
        some { rec with address := addr } ∧
      ∀ k, k ≠ r →
        Store.find? (modify_address s r addr) k = Store.find? s k) ∧
    (Store.find? (modify_phone s r ph) r = some { rec with phone := ph } ∧
      ∀ k, k ≠ r → Store.find? (modify_phone s r ph) k = Store.find? s k) := by
  refine ⟨⟨?_, ?_⟩, ⟨?_, ?_⟩, ⟨?_, ?_⟩⟩
  · simp [modify_name, hb, Store.find?_update_self]
  · intro k hk
    simp [modify_name, hb, Store.find?_update_ne _ _ _ _ hk]
  · simp [modify_address, hb, Store.find?_update_self]
  · intro k hk
    simp [modify_address, hb, Store.find?_update_ne _ _ _ _ hk]
  · simp [modify_phone, hb, Store.find?_update_self]
  · intro k hk
    simp [modify_phone, hb, Store.find?_update_ne _ _ _ _ hk]

/-- A two-room store used by the C8 witness. -/
def twoRooms : Store := [((1 : Int), RoomData.init), ((2 : Int), RoomData.init)]

/-- Witness for C8 on a two-room store: renaming room 1 rewrites only its
name and room 2 is untouched. -/
theorem modify_text_fields_frame_witness :
    Store.find? (modify_name twoRooms 1 "Bob") 1 =
      some { RoomData.init with name := "Bob" } ∧
    Store.find? (modify_name twoRooms 1 "Bob") 2 = Store.find? twoRooms 2 :=
  ⟨(modify_text_fields_frame twoRooms 1 "Bob" "" "" RoomData.init
      (by decide)).1.1,
   (modify_text_fields_frame twoRooms 1 "Bob" "" "" RoomData.init
      (by decide)).1.2 2 (by norm_num)⟩

/-- Claim C9: neither booking nor the days update bounds `days` from
below: for every integer number of days (zero and negative included),
booking a vacant valid room succeeds and the days update on a booked room
goes through, and both store cost = days * rate, which is zero or negative
exactly when days is. -/
theorem days_no_lower_bound (s : Store) (r : Int) (nm addr ph : String)
    (d : Int) (h1 : 1 ≤ r) (h2 : r ≤ 100) :
    (Store.find? s r = none →
      (add_room s r nm addr ph d).2 = AddOutcome.booked ∧
      ∃ rec, Store.find? (add_room s r nm addr ph d).1 r = some rec ∧
        rec.days = d ∧ rec.cost = d * rate r) ∧
    (∀ rec0, Store.find? s r = some rec0 → rec0.room_no = r →
      ∃ rec, Store.find? (modify_days s r d) r = some rec ∧
        rec.days = d ∧ rec.cost = d * rate r) := by
  constructor
  · intro hv
    have he := add_room_vacant_eq s r nm addr ph d hv h1 h2
    rw [he]
    exact ⟨rfl, _, Store.find?_insert_self s r _, rfl, rfl⟩
  · intro rec0 hb hr
    exact ⟨_, modify_days_found_eq s r d rec0 hb hr h1 h2, rfl, rfl⟩

/-- Witness for C9: room 1 booked for -3 days stores cost -30000, and a
days update to 0 stores cost 0. -/
theorem days_no_lower_bound_witness :
    ((add_room [] 1 "" "" "" (-3)).2 = AddOutcome.booked ∧
      ∃ rec, Store.find? (add_room [] 1 "" "" "" (-3)).1 1 = some rec ∧
        rec.days = -3 ∧ rec.cost = -3 * rate 1) ∧
    (∃ rec,
      Store.find?
          (modify_days [((1 : Int), { RoomData.init with room_no := 1 })] 1 0)
          1 =
        some rec ∧ rec.days = 0 ∧ rec.cost = 0 * rate 1) :=
  ⟨(days_no_lower_bound [] 1 "" "" "" (-3) (by norm_num) (by norm_num)).1 rfl,
   (days_no_lower_bound [((1 : Int), { RoomData.init with room_no := 1 })] 1
       "" "" "" 0 (by norm_num) (by norm_num)).2
     { RoomData.init with room_no := 1 } rfl rfl⟩

/-- Claim C10: a food order whose meal choice is not 1, 2 or 3 returns the
store unchanged (every record and every field as before), booked target
and supplied people count notwithstanding. -/
theorem order_food_invalid_meal_frame (s : Store) (mc r n : Int)
    (hm1 : mc ≠ 1) (hm2 : mc ≠ 2) (hm3 : mc ≠ 3) :
    order_food s mc r n = s := by
  rw [order_food]
  cases hb : Store.find? s r with
  | none => rfl
  | some rec => simp [hm1, hm2, hm3]

/-- Witness for C10: meal choice 4 for booked room 1 with 2 people changes
nothing. -/
theorem order_food_invalid_meal_frame_witness :
    order_food [((1 : Int), RoomData.init)] 4 1 2 =
      [((1 : Int), RoomData.init)] :=
  order_food_invalid_meal_frame [((1 : Int), RoomData.init)] 4 1 2
    (by norm_num) (by norm_num) (by norm_num)

/-- Claim C3: the booked record satisfies cost = days * rate of its room
band immediately after a successful booking and after every days update. -/
theorem cost_invariant_create_and_modify_days (s : Store) (r : Int)
    (nm addr ph : String) (d d2 : Int) (h1 : 1 ≤ r) (h2 : r ≤ 100) :
    (Store.find? s r = none →
      ∃ rec, Store.find? (add_room s r nm addr ph d).1 r = some rec ∧
        rec.cost = rec.days * rate r ∧ rec.days = d) ∧
    (∀ rec0, Store.find? s r = some rec0 → rec0.room_no = r →
      ∃ rec, Store.find? (modify_days s r d2) r = some rec ∧
        rec.cost = rec.days * rate r ∧ rec.days = d2) := by
  constructor
  · intro hv
    rw [add_room_vacant_eq s r nm addr ph d hv h1 h2]
    exact ⟨_, Store.find?_insert_self s r _, rfl, rfl⟩
  · intro rec0 hb hr
    exact ⟨_, modify_days_found_eq s r d2 rec0 hb hr h1 h2, rfl, rfl⟩

/-- The Executive-band record of the spec's scenario, room 55. -/
def room55 : RoomData := { RoomData.init with room_no := 55 }

/-- A one-room store holding `room55`. -/
def store55 : Store := [((55 : Int), room55)]

/-- Witness for C3 on room 55 (Executive): booking for 2 days and then
updating to 5 days both leave cost = days * rate 55. -/
theorem cost_invariant_create_and_modify_days_witness :
    (∃ rec, Store.find? (add_room [] 55 "" "" "" 2).1 55 = some rec ∧
      rec.cost = rec.days * rate 55 ∧ rec.days = 2) ∧
    (∃ rec, Store.find? (modify_days store55 55 5) 55 = some rec ∧
      rec.cost = rec.days * rate 55 ∧ rec.days = 5) :=
  ⟨(cost_invariant_create_and_modify_days [] 55 "" "" "" 2 5 (by norm_num)
      (by norm_num)).1 rfl,
   (cost_invariant_create_and_modify_days store55 55 "" "" "" 2 5
      (by norm_num) (by norm_num)).2 room55 (by decide) rfl⟩

theorem apply_orders_food_bill (r : Int) (orders : List (Int × Int)) :
    ∀ (s : Store) (rec : RoomData), Store.find? s r = some rec →
      Store.find? (apply_orders s r orders) r =
        some { rec with
                 food_bill := rec.food_bill +
                   (orders.map fun o => o.2 * meal_rate o.1).sum } := by
  induction orders with
  | nil =>
    intro s rec hb
    simp [apply_orders, hb]
  | cons o rest ih =>
    intro s rec hb
    have h1 := order_food_found_eq s o.1 r o.2 rec hb
    have h2 := ih (order_food s o.1 r o.2) _ h1
    show Store.find? (apply_orders (order_food s o.1 r o.2) r rest) r = _
    rw [h2]
    simp only [List.map_cons, List.sum_cons]
    congr 2
    ring

/-- Claim C5: starting from a fresh booking, after any sequence of valid
meal orders the food bill is the sum over the orders of people times the
meal's per-person rate (breakfast 500, lunch 1000, dinner 1200); and no
single food order with a nonnegative people count ever decreases the food
bill. -/
theorem food_bill_sum_and_monotone :
    (∀ (s : Store) (r : Int) (nm addr ph : String) (d : Int)
        (orders : List (Int × Int)), 1 ≤ r → r ≤ 100 →
      Store.find? s r = none →
      (∀ o ∈ orders, o.1 = 1 ∨ o.1 = 2 ∨ o.1 = 3) →
      ∃ rec,
        Store.find? (apply_orders (add_room s r nm addr ph d).1 r orders) r =
          some rec ∧
        rec.food_bill = (orders.map fun o => o.2 * meal_rate o.1).sum) ∧
    (∀ (s : Store) (mc r n : Int) (rec : RoomData), 0 ≤ n →
      Store.find? s r = some rec →
      ∃ rec2, Store.find? (order_food s mc r n) r = some rec2 ∧
        rec.food_bill ≤ rec2.food_bill) := by
  constructor
  · intro s r nm addr ph d orders h1 h2 hv _hvalid
    rw [add_room_vacant_eq s r nm addr ph d hv h1 h2]
    have hb := Store.find?_insert_self s r
      { room_no := r, name := nm, address := addr, phone := ph, days := d,
        cost := d * rate r,
        rtype := ((room_type_and_rate r).map Prod.fst).getD "",
        food_bill := 0 }
    have hsum := apply_orders_food_bill r orders _ _ hb
    exact ⟨_, hsum, by simp⟩
  · intro s mc r n rec hn hb
    refine ⟨_, order_food_found_eq s mc r n rec hb, ?_⟩
    have hr : 0 ≤ meal_rate mc := by
      unfold meal_rate
      split_ifs <;> norm_num
    have hp : 0 ≤ meal_rate mc * n := mul_nonneg hr hn
    simp only
    linarith

/-- Witness for C5: book room 1 for 3 days, order breakfast for 2 and
dinner for 1; the food bill is 2200, and a lunch order for 2 people on the
bill-carrying store does not decrease the bill. -/
theorem food_bill_sum_and_monotone_witness :
    (∃ rec,
      Store.find?
          (apply_orders (add_room [] 1 "" "" "" 3).1 1
            [((1 : Int), (2 : Int)), ((3 : Int), (1 : Int))]) 1 =
        some rec ∧
      rec.food_bill =
        (([((1 : Int), (2 : Int)), ((3 : Int), (1 : Int))].map
            fun o => o.2 * meal_rate o.1).sum)) ∧
    (∃ rec2, Store.find? (order_food billStore 2 1 2) 1 = some rec2 ∧
      billRoom.food_bill ≤ rec2.food_bill) :=
  ⟨food_bill_sum_and_monotone.1 [] 1 "" "" "" 3
     [((1 : Int), (2 : Int)), ((3 : Int), (1 : Int))] (by norm_num)
     (by norm_num) rfl (by decide),
   food_bill_sum_and_monotone.2 billStore 2 1 2 billRoom (by norm_num)
     (by decide)⟩

theorem readRecords_append_extra (size : Nat) (hs : 0 < size) :
    ∀ (k : Nat) (full extra : List Byte), full.length = size * k →
      extra.length < size →
      readRecords size (full ++ extra) = readRecords size full := by
  intro k
  induction k with
  | zero =>
    intro full extra hf hx
    have hfull : full = [] := List.length_eq_zero.mp (by simpa using hf)
    subst hfull
    simp only [List.nil_append]
    rw [readRecords_eq, if_neg (by omega), readRecords_eq, if_neg]
    simp only [List.length_nil]
    omega
  | succ k ih =>
    intro full extra hf hx
    have hf' : full.length = size * k + size := by rw [hf]; ring
    have hsz : size ≤ full.length := by
      rw [hf']
      exact Nat.le_add_left size _
    rw [readRecords_eq size (full ++ extra), readRecords_eq size full]
    have hc1 : 0 < size ∧ size ≤ (full ++ extra).length :=
      ⟨hs, by rw [List.length_append]; exact Nat.le_trans hsz (Nat.le_add_right _ _)⟩
    rw [if_pos hc1, if_pos ⟨hs, hsz⟩]
    rw [List.take_append_of_le_length hsz, List.drop_append_of_le_length hsz]
    congr 1
    refine ih (full.drop size) extra ?_ hx
    rw [List.length_drop, hf']
    simp

set_option maxRecDepth 8000 in
/-- Claim C2, counterexample to the statement as written: a 161-byte
stream — one complete 160-byte record image followed by one stray byte —
ends mid-record, yet load produces a one-record store, not the empty
store the claim requires (there is no CorruptData outcome in the code at
all: `load_data` returns the map with every fully read record).  160
stands for sizeof(RoomData) on a typical LP64 build; by
`load_drops_truncated_tail` the behaviour is the same for every positive
record size and every decode function. -/
theorem load_mid_record_not_empty_store :
    load_from_file (fun _ => RoomData.init) 160
        (some (List.replicate 161 (0 : Byte))) =
      [((0 : Int), RoomData.init)] ∧
    load_from_file (fun _ => RoomData.init) 160
        (some (List.replicate 161 (0 : Byte))) ≠ ([] : Store) := by
  constructor
  · rfl
  · intro h
    exact absurd (rfl.trans h) (by decide)

/-- Claim C2, amended: absence of a persisted file at load time is not an
error and yields an empty store; but a byte stream that ends mid-record is
not an error either — load silently stops after the last complete record
image, keeping every record read so far and discarding the truncated
tail, with no CorruptData failure and no fallback to an empty store. -/
theorem load_drops_truncated_tail (decode : List Byte → RoomData)
    (size : Nat) (full extra : List Byte) (hs : 0 < size)
    (hd : size ∣ full.length) (hx : extra.length < size) :
    load_from_file decode size none = [] ∧
    load_data decode size (full ++ extra) = load_data decode size full := by
  refine ⟨rfl, ?_⟩
  obtain ⟨k, hk⟩ := hd
  unfold load_data
  rw [readRecords_append_extra size hs k full extra hk hx]

/-- Witness for the amended C2 at record size 160: a missing file loads
as the empty store, and one full record image plus a stray byte loads
the same as the full image alone. -/
theorem load_drops_truncated_tail_witness :
    load_from_file (fun _ => RoomData.init) 160 none = [] ∧
    load_data (fun _ => RoomData.init) 160
        (List.replicate 160 (0 : Byte) ++ List.replicate 1 (0 : Byte)) =
      load_data (fun _ => RoomData.init) 160 (List.replicate 160 (0 : Byte)) :=
  load_drops_truncated_tail (fun _ => RoomData.init) 160
    (List.replicate 160 (0 : Byte)) (List.replicate 1 (0 : Byte))
    (by norm_num) (by simp) (by simp)

/-- Claim C1: the round-trip law cannot hold of the source codec.
`save_data` (line 114) writes every record as one
`fout.write(..., sizeof(RoomData))` — a fixed number of bytes per record,
however long the record's `name`, `address` and `phone` strings are; no
length information for the text fields ever reaches the file.  This
theorem shows the scheme is irreparable: for every per-record image of
some fixed length S (sizeof(RoomData)) and every restore function there
is a store — two stores differing only in the guest name, in fact — that
fails to round-trip, because infinitely many names cannot be told apart
by S bytes. -/
theorem save_data_fixed_image_no_roundtrip (S : Nat)
    (image : RoomData → List Byte) (himg : ∀ rec, (image rec).length = S)
    (restore : List Byte → Store) :
    ∃ s : Store, restore (save_data image s) ≠ s := by
  classical
  let rooms : ℕ → RoomData := fun n =>
    { RoomData.init with name := String.mk (List.replicate n 'a') }
  have hinj : Function.Injective rooms := by
    intro n m h
    have hname := congrArg RoomData.name h
    have hdata := congrArg String.data hname
    have hlen := congrArg List.length hdata
    simpa using hlen
  let f : ℕ → (Fin S → Byte) := fun n i =>
    (image (rooms n)).get ⟨i.1, by rw [himg]; exact i.2⟩
  obtain ⟨n, m, hnm, hf⟩ := Finite.exists_ne_map_eq_of_infinite f
  have himgeq : image (rooms n) = image (rooms m) := by
    apply List.ext_get (by rw [himg, himg])
    intro i hi1 hi2
    have hiS : i < S := by
      rw [himg] at hi1
      exact hi1
    exact congrFun hf ⟨i, hiS⟩
  have hsave : ∀ rd : RoomData, save_data image [((1 : Int), rd)] = image rd := by
    intro rd
    simp [save_data]
  by_cases hres : restore (image (rooms n)) = [((1 : Int), rooms n)]
  · refine ⟨[((1 : Int), rooms m)], ?_⟩
    rw [hsave, ← himgeq, hres]
    intro h
    apply hnm
    apply hinj
    simpa using h
  · exact ⟨[((1 : Int), rooms n)], by rw [hsave]; exact hres⟩

/-- Witness for the C1 theorem at image length 0. -/
theorem save_data_fixed_image_no_roundtrip_witness :
    ∃ s : Store,
      (fun _ => ([] : Store)) (save_data (fun _ => ([] : List Byte)) s) ≠ s :=
  save_data_fixed_image_no_roundtrip 0 (fun _ => []) (fun _ => rfl)
    (fun _ => [])

end HMS
